import Mathlib

/-!
Verification development for the `upstox-totp` repository: a shallow
embedding of the authentication core (TOTP generator, authentication
state machine, token exchanger, token cache/store) together with
theorems settling the specification's testable properties.

The repository's `src/` tree ships only an example script and the
documentation build configuration; the core package itself is not
present.  Every definition of the core below is therefore modelled from
the specification's component contracts, as indicated in the doc
comments.
-/

namespace UpstoxTotp

/-! ## TOTP Generator -/

/-- Modelled from the spec: the base32 alphabet value of a character
(`A`–`Z` ↦ 0–25, `2`–`7` ↦ 26–31), `none` for any character outside the
alphabet.  The base32 decoder of the TOTP Generator is not in `src/`. -/
def base32Val (c : Char) : Option Nat :=
  if 'A' ≤ c ∧ c ≤ 'Z' then some (c.toNat - 'A'.toNat)
  else if '2' ≤ c ∧ c ≤ '7' then some (c.toNat - '2'.toNat + 26)
  else none

/-- Pack a list of 5-bit base32 values into 8-bit bytes, most significant
bits first; leftover bits (fewer than 8) are dropped, as in RFC 4648
decoding. `acc` holds the pending bits' value and `bits` how many bits are
pending. -/
def packBits : List Nat → Nat → Nat → List Nat
  | [], _, _ => []
  | v :: rest, acc, bits =>
      let acc' := acc * 32 + v
      if 8 ≤ bits + 5 then
        (acc' / 2 ^ (bits + 5 - 8)) % 256 :: packBits rest (acc' % 2 ^ (bits + 5 - 8)) (bits + 5 - 8)
      else
        packBits rest acc' (bits + 5)

/-- Modelled from the spec: base32 decoding of the shared secret
("base32-encoded shared secret (must decode to valid byte length; fails
with `InvalidSecret` otherwise)").  The secret is malformed when it is
empty or contains a character outside the base32 alphabet; otherwise it
decodes to the packed byte list.  The decoder itself is not in `src/`. -/
def decodeBase32 (s : String) : Option (List Nat) :=
  if s.data = [] then none
  else if s.data.all (fun c => (base32Val c).isSome) then
    some (packBits (s.data.map (fun c => (base32Val c).getD 0)) 0 0)
  else none

/-- Error raised by the TOTP generator on a malformed secret. -/
inductive TotpError
  | invalidSecret
deriving DecidableEq, Repr

/-- The vendor's expected digit length of a TOTP code (6 digits). -/
def totpDigits : Nat := 6

/-- The TOTP time-step length in seconds (30-second window). -/
def timeStep : Nat := 30

/-- Modelled from the spec: the keyed mixing of the decoded secret with
the time-step counter ("derives a time-based one-time password from a
shared secret and the current time step").  The HMAC internals are not in
`src/`; any deterministic function of the key bytes and the counter is
faithful to the contract. -/
def hotpMix (key : List Nat) (counter : Nat) : Nat :=
  key.foldl (fun a b => (a * 131 + b + 1) % 2 ^ 31) (counter % 2 ^ 31)

/-- The decimal digits of `n`, most significant first, zero-padded to the
fixed code length `totpDigits`. -/
def codeDigits (n : Nat) : List Char :=
  (List.range totpDigits).reverse.map (fun i => Char.ofNat ('0'.toNat + n / 10 ^ i % 10))

/-- Modelled from the spec: `generate(secret, time) -> code` of the TOTP
Generator, not in `src/`.  Decodes the base32 secret (failing with
`InvalidSecret` on a malformed one), derives the code from the key and the
30-second time window `time / 30`, and renders it as a fixed-length
numeric string.  A pure function: no side effects, no network I/O. -/
def generate (secret : String) (time : Nat) : Except TotpError String :=
  match decodeBase32 secret with
  | none => .error .invalidSecret
  | some key => .ok (String.mk (codeDigits (hotpMix key (time / timeStep) % 10 ^ totpDigits)))

/-! ## Data model -/

/-- Modelled from the spec: the immutable credential set (client ID,
client secret, mobile/username, password, TOTP shared secret, PIN),
supplied by the caller; the `Credentials` object of the core is not in
`src/`. -/
structure Credentials where
  clientId : String
  clientSecret : String
  username : String
  password : String
  totpSecret : String
  pin : String
deriving DecidableEq, Repr

/-- Modelled from the spec: the `AccessToken` value object — token
string, issuance time, expiry time, token type; not in `src/`. -/
structure AccessToken where
  token : String
  issuedAt : Nat
  expiresAt : Nat
  tokenType : String
deriving DecidableEq, Repr

/-! ## Authentication steps and errors -/

/-- The login steps of the fixed vendor flow, used for failure
attribution. -/
inductive Step
  | credentials
  | otp
  | pin
  | redirect
  | tokenExchange
deriving DecidableEq, Repr

/-- Modelled from the spec: the error taxonomy — `InvalidSecret`,
`AuthStepFailed(step, status, reason)`, `TokenExchangeFailed(status,
body)`, `MalformedTokenResponse`; not in `src/`. -/
inductive AuthError
  | invalidSecret
  | authStepFailed (step : Step) (status : Nat) (reason : String)
  | tokenExchangeFailed (status : Nat) (body : String)
  | malformedTokenResponse
deriving DecidableEq, Repr

/-- The states of the Authentication State Machine:
`Init → CredentialsSubmitted → OtpSubmitted → PinSubmitted →
AuthorizationObtained → TokenExchanged`, with terminal `Failed`. -/
inductive MachineState
  | init
  | credentialsSubmitted
  | otpSubmitted
  | pinSubmitted
  | authorizationObtained
  | tokenExchanged (t : AccessToken)
  | failed (e : AuthError)
deriving DecidableEq, Repr

/-! ## Scripted vendor responses -/

/-- A scripted vendor response to one login step: whether the response
carries the expected marker, its HTTP status, and a reason string. -/
structure StepResponse where
  ok : Bool
  status : Nat
  reason : String
deriving DecidableEq, Repr

/-- A scripted vendor response of the token endpoint: success flag, HTTP
status, raw body, and the optional token string and stated lifetime
fields of a success body. -/
structure TokenResponse where
  ok : Bool
  status : Nat
  body : String
  token : Option String
  expiresIn : Option Nat
deriving DecidableEq, Repr

/-- A scripted sequence of vendor responses for one full flow: the
credentials step, the first and the retried OTP submission, the PIN
step, the final redirect (`authCode = none` models a deviating redirect
without an authorization code, with `redirectStatus` its HTTP status),
and the token-endpoint response. -/
structure Script where
  credResp : StepResponse
  otpResp1 : StepResponse
  otpResp2 : StepResponse
  pinResp : StepResponse
  authCode : Option String
  redirectStatus : Nat
  tokenResp : TokenResponse
deriving DecidableEq, Repr

/-! ## Token Exchanger -/

/-- Modelled from the spec: `exchange(authCode, credentials) ->
AccessToken` of the Token Exchanger, not in `src/`.  Fails with
`TokenExchangeFailed(status, body)` on a non-success response, with
`MalformedTokenResponse` when the success response lacks the token string
or the expiry; on success the expiry is the vendor's stated lifetime
relative to the exchange completion time `now`. -/
def exchange (authCode : String) (creds : Credentials) (resp : TokenResponse)
    (now : Nat) : Except AuthError AccessToken :=
  let _ := authCode
  let _ := creds
  if ¬resp.ok then .error (.tokenExchangeFailed resp.status resp.body)
  else
    match resp.token, resp.expiresIn with
    | some t, some d => .ok ⟨t, now, now + d, "Bearer"⟩
    | _, _ => .error .malformedTokenResponse

/-! ## Authentication State Machine -/

/-- The outcome of one state-machine run: the result delivered to the
caller and the number of OTP submissions the run made. -/
structure FlowResult where
  result : Except AuthError AccessToken
  otpSubmissions : Nat
deriving Repr

/-- The terminal machine state corresponding to a flow result: success
is `TokenExchanged`, failure is `Failed` with the discriminated error. -/
def machineStateOf (r : Except AuthError AccessToken) : MachineState :=
  match r with
  | .ok t => .tokenExchanged t
  | .error e => .failed e

/-- The tail of the flow after a successful OTP submission (the `n`-th):
submit the PIN, extract the authorization code from the final redirect,
and exchange it for an access token. -/
def flowAfterOtp (creds : Credentials) (script : Script) (now : Nat)
    (n : Nat) : FlowResult :=
  if ¬script.pinResp.ok then
    ⟨.error (.authStepFailed .pin script.pinResp.status script.pinResp.reason), n⟩
  else
    match script.authCode with
    | none =>
        ⟨.error (.authStepFailed .redirect script.redirectStatus
          "redirect without authorization code"), n⟩
    | some code => ⟨exchange code creds script.tokenResp now, n⟩

/-- Modelled from the spec: one run of the Authentication State Machine,
not in `src/`.  It validates each scripted response before advancing:
credentials first; then a TOTP code is generated (a malformed secret
fails the run with `InvalidSecret` before any OTP submission) and the
OTP submitted; a rejected OTP is retried exactly once with a freshly
generated code, a second rejection fails permanently; then PIN,
authorization-code extraction from the final redirect, and the token
exchange. -/
def runFlow (creds : Credentials) (script : Script) (now : Nat) : FlowResult :=
  if ¬script.credResp.ok then
    ⟨.error (.authStepFailed .credentials script.credResp.status script.credResp.reason), 0⟩
  else
    match generate creds.totpSecret now with
    | .error _ => ⟨.error .invalidSecret, 0⟩
    | .ok _ =>
        if script.otpResp1.ok then flowAfterOtp creds script now 1
        else if script.otpResp2.ok then flowAfterOtp creds script now 2
        else ⟨.error (.authStepFailed .otp script.otpResp2.status script.otpResp2.reason), 2⟩

/-! ## Token Cache/Store -/

/-- Modelled from the spec: the credential fingerprint — a hash derived
from the client ID and username only, never including secrets; the
hashing routine is not in `src/`. -/
def fingerprint (c : Credentials) : Nat :=
  (c.clientId.data ++ '/' :: c.username.data).foldl
    (fun a ch => (a * 256 + ch.toNat + 1) % 2 ^ 61) 7

/-- A cache entry: the access token plus the credential fingerprint it
was issued for. -/
structure CacheEntry where
  token : AccessToken
  fingerprint : Nat
deriving DecidableEq, Repr

/-- The safety margin (in seconds) subtracted from the expiry when
judging a cache hit. -/
def safetyMargin : Nat := 60

/-- Modelled from the spec: validity of a cache entry — the fingerprint
matches the current credentials and the current time is still strictly
before expiry minus the safety margin. -/
def cacheValid (e : CacheEntry) (c : Credentials) (now : Nat) : Bool :=
  e.fingerprint = fingerprint c ∧ now + safetyMargin < e.token.expiresAt

/-- Modelled from the spec: `load() -> Optional<AccessToken>` of the
Token Cache/Store, not in `src/`.  Returns nothing when there is no
entry, the fingerprint mismatches, or the expiry minus the safety margin
has passed. -/
def load (cache : Option CacheEntry) (c : Credentials) (now : Nat) :
    Option AccessToken :=
  match cache with
  | none => none
  | some e => if cacheValid e c now then some e.token else none

/-- Modelled from the spec: `save(AccessToken)` of the Token
Cache/Store, not in `src/`.  Overwrites any prior entry with the token
scoped to the current credential fingerprint. -/
def save (cache : Option CacheEntry) (c : Credentials) (t : AccessToken) :
    Option CacheEntry :=
  let _ := cache
  some ⟨t, fingerprint c⟩

/-! ## Public operation -/

/-- Modelled from the spec: `getAccessToken(forceRefresh) ->
AccessToken`, the public operation, not in `src/`.  Checks the cache
unless `forceRefresh`; on a valid hit returns the cached token, else
runs the full flow and, on success, updates the cache with the newly
exchanged token before returning it; a failed flow leaves the cache
unwritten. -/
def getAccessToken (forceRefresh : Bool) (cache : Option CacheEntry)
    (creds : Credentials) (script : Script) (now : Nat) :
    Except AuthError AccessToken × Option CacheEntry :=
  match if forceRefresh then none else load cache creds now with
  | some t => (.ok t, cache)
  | none =>
      match (runFlow creds script now).result with
      | .ok t => (.ok t, save cache creds t)
      | .error e => (.error e, cache)

/-! ## Persistence model: write-to-temp-then-rename

Modelled from the spec: `save` persists the cache entry with a
write-to-temp-then-rename discipline — each writer streams bytes into
its own temporary file and then installs it into the main token file
with a single atomic rename; the persistence layer is not in `src/`. -/

/-- Length-prefixed byte encoding of a string. -/
def encStr (s : String) : List Nat :=
  s.length :: s.data.map Char.toNat

/-- Serialized byte representation of a cache entry: a leading magic
byte, the fingerprint, the issuance and expiry times, then the
length-prefixed token string and token type. -/
def serialize (e : CacheEntry) : List Nat :=
  202 :: e.fingerprint :: e.token.issuedAt :: e.token.expiresAt ::
    (encStr e.token.token ++ encStr e.token.tokenType)

/-- Parse one length-prefixed string from a byte list, returning it with
the remaining bytes; fails on a truncated encoding. -/
def decStr : List Nat → Option (String × List Nat)
  | [] => none
  | n :: rest =>
      if n ≤ rest.length then
        some (String.mk ((rest.take n).map Char.ofNat), rest.drop n)
      else none

/-- Parse a serialized cache entry; any deviation from the exact shape
produced by `serialize` (wrong magic byte, truncation, trailing bytes)
yields `none`, which the store treats as a cache miss. -/
def deserialize (l : List Nat) : Option CacheEntry :=
  match l with
  | 202 :: fp :: iss :: expy :: rest =>
      match decStr rest with
      | some (tok, rest2) =>
          match decStr rest2 with
          | some (ty, []) => some ⟨⟨tok, iss, expy, ty⟩, fp⟩
          | _ => none
      | none => none
  | _ => none

/-- The persisted state seen by the store: the main token file and the
private temporary files of the two concurrent writers (`none` = file
absent). -/
structure FS where
  main : Option (List Nat)
  temp1 : Option (List Nat)
  temp2 : Option (List Nat)
deriving DecidableEq, Repr

/-- One atomic filesystem operation: appending a byte to a writer's own
temporary file, or atomically renaming that temporary file onto the main
token file. -/
inductive FsOp
  | write1 (b : Nat)
  | write2 (b : Nat)
  | rename1
  | rename2
deriving DecidableEq, Repr

/-- Apply one filesystem operation. -/
def applyOp (fs : FS) : FsOp → FS
  | .write1 b => { fs with temp1 := some (fs.temp1.getD [] ++ [b]) }
  | .write2 b => { fs with temp2 := some (fs.temp2.getD [] ++ [b]) }
  | .rename1 => { fs with main := fs.temp1, temp1 := none }
  | .rename2 => { fs with main := fs.temp2, temp2 := none }

/-- Execute a sequence of filesystem operations. -/
def exec (l : List FsOp) (fs : FS) : FS :=
  l.foldl applyOp fs

/-- The operation sequence of the first writer's `save`: write the
serialized bytes `d` into its temporary file, then atomically rename. -/
def writer1Ops (d : List Nat) : List FsOp :=
  d.map .write1 ++ [.rename1]

/-- The operation sequence of the second writer's `save`. -/
def writer2Ops (d : List Nat) : List FsOp :=
  d.map .write2 ++ [.rename2]

/-- `Merge a b l`: `l` is an interleaving of the two operation sequences
`a` and `b`, preserving the order within each. -/
inductive Merge : List FsOp → List FsOp → List FsOp → Prop
  | nil : Merge [] [] []
  | left {x : FsOp} {a b l : List FsOp} : Merge a b l → Merge (x :: a) b (x :: l)
  | right {x : FsOp} {a b l : List FsOp} : Merge a b l → Merge a (x :: b) (x :: l)

/-- What `load` observes on disk: the parse of the main token file
(absent or unparseable content is a cache miss). -/
def loadFS (fs : FS) : Option CacheEntry :=
  fs.main.bind deserialize

/-- Mid-`save` progress of writer 1: either the remaining operations are
the writes of the untransferred suffix of `d` followed by the rename,
with the temporary file holding exactly the transferred prefix, or the
writer has finished. -/
def Writer1At (d : List Nat) (a : List FsOp) (t : Option (List Nat)) : Prop :=
  (∃ k, k ≤ d.length ∧ a = (d.drop k).map FsOp.write1 ++ [.rename1] ∧
    t.getD [] = d.take k) ∨ a = []

/-- Mid-`save` progress of writer 2. -/
def Writer2At (d : List Nat) (a : List FsOp) (t : Option (List Nat)) : Prop :=
  (∃ k, k ≤ d.length ∧ a = (d.drop k).map FsOp.write2 ++ [.rename2] ∧
    t.getD [] = d.take k) ∨ a = []

/-- The HTTP status of the scripted response answering each step (for
the OTP step, the retried submission, whose rejection is the one that
fails the run permanently). -/
def scriptStatus (script : Script) : Step → Nat
  | .credentials => script.credResp.status
  | .otp => script.otpResp2.status
  | .pin => script.pinResp.status
  | .redirect => script.redirectStatus
  | .tokenExchange => script.tokenResp.status

/-! ## Concrete fixtures for witnesses -/

/-- A sample access token used in concrete instances. -/
def sampleToken : AccessToken := ⟨"TOK", 0, 1000, "Bearer"⟩

/-- Sample credentials with a well-formed base32 TOTP secret. -/
def sampleCreds : Credentials := ⟨"CID", "CSECRET", "USER", "PASS", "AA", "1234"⟩

/-- Sample credentials with a malformed TOTP secret (the character `1`
is outside the base32 alphabet). -/
def badSecretCreds : Credentials := ⟨"CID", "CSECRET", "USER", "PASS", "1", "1234"⟩

/-- An accepting step response. -/
def okStep : StepResponse := ⟨true, 200, "ok"⟩

/-- A rejecting step response. -/
def rejStep : StepResponse := ⟨false, 400, "rejected"⟩

/-- A well-formed token-endpoint success response. -/
def okTokenResp : TokenResponse := ⟨true, 200, "{}", some "TOK", some 1000⟩

/-- A token-endpoint success response lacking the token field. -/
def noTokenResp : TokenResponse := ⟨true, 200, "{}", none, some 1000⟩

/-- A script in which every step is accepted on the first attempt. -/
def okScript : Script := ⟨okStep, okStep, okStep, okStep, some "AUTH", 302, okTokenResp⟩

/-- A script in which the first OTP submission is rejected and the retry
is accepted. -/
def retryScript : Script := ⟨okStep, rejStep, okStep, okStep, some "AUTH", 302, okTokenResp⟩

/-- A script in which the PIN step is rejected. -/
def pinFailScript : Script := ⟨okStep, okStep, okStep, rejStep, some "AUTH", 302, okTokenResp⟩

/-- A script whose token-endpoint response lacks the token field. -/
def badTokenScript : Script := ⟨okStep, okStep, okStep, okStep, some "AUTH", 302, noTokenResp⟩

/-- A sample cache entry holding `sampleToken` for `sampleCreds`. -/
def sampleEntry : CacheEntry := ⟨sampleToken, fingerprint sampleCreds⟩

/-! ## Theorems -/

/-- Helper: the rendered code has exactly the fixed number of digits. -/
theorem codeDigits_length (n : Nat) : (codeDigits n).length = totpDigits := by
  simp [codeDigits]

/-- C3: for every valid base32 secret and times in the same 30-second
window, `generate` returns the same code, and that code has the vendor's
expected fixed digit length (6 digits). -/
theorem c3_generate_deterministic_fixed_length (secret : String) (t1 t2 : Nat)
    (hvalid : (decodeBase32 secret).isSome = true)
    (hw : t1 / timeStep = t2 / timeStep) :
    generate secret t1 = generate secret t2 ∧
    ∃ c, generate secret t1 = .ok c ∧ c.length = totpDigits := by
  obtain ⟨key, hk⟩ := Option.isSome_iff_exists.mp hvalid
  have hgen : ∀ t, generate secret t =
      .ok (String.mk (codeDigits (hotpMix key (t / timeStep) % 10 ^ totpDigits))) := by
    intro t
    unfold generate
    rw [hk]
  refine ⟨by rw [hgen, hgen, hw], ⟨_, hgen t1, ?_⟩⟩
  show (codeDigits _).length = totpDigits
  exact codeDigits_length _

/-- Witness for C3 at the concrete secret `"AA"` and times 0 and 29 of
the same window. -/
theorem c3_witness :
    (decodeBase32 "AA").isSome = true ∧ (0 : Nat) / timeStep = 29 / timeStep ∧
    (generate "AA" 0 = generate "AA" 29 ∧
      ∃ c, generate "AA" 0 = .ok c ∧ c.length = totpDigits) :=
  ⟨by decide, by decide,
    c3_generate_deterministic_fixed_length "AA" 0 29 (by decide) (by decide)⟩

/-- C4: for every malformed secret, `generate` fails with
`InvalidSecret` (being a pure function, it performs no I/O), and the
state machine fails the run with `InvalidSecret` before any OTP
submission — the error is never retried. -/
theorem c4_generate_invalid_secret (secret : String) (t : Nat)
    (h : decodeBase32 secret = none) :
    generate secret t = .error .invalidSecret ∧
    ∀ (creds : Credentials) (script : Script) (now : Nat),
      creds.totpSecret = secret → script.credResp.ok = true →
      runFlow creds script now = ⟨.error .invalidSecret, 0⟩ := by
  have hg : ∀ t', generate secret t' = .error .invalidSecret := by
    intro t'
    unfold generate
    rw [h]
  refine ⟨hg t, ?_⟩
  intro creds script now hsec hok
  have hg' : generate creds.totpSecret now = .error .invalidSecret := by
    rw [hsec]; exact hg now
  simp [runFlow, hok, hg']

/-- Witness for C4 at the concrete malformed secret `"1"`. -/
theorem c4_witness :
    decodeBase32 "1" = none ∧
    generate "1" 7 = .error .invalidSecret ∧
    runFlow badSecretCreds okScript 7 = ⟨.error .invalidSecret, 0⟩ :=
  ⟨rfl, (c4_generate_invalid_secret "1" 7 rfl).1,
    (c4_generate_invalid_secret "1" 7 rfl).2 badSecretCreds okScript 7 rfl rfl⟩

/-- C5: `save` then `load` with unchanged credentials, at any time still
strictly inside the token's lifetime minus the safety margin, returns
the saved token. -/
theorem c5_save_load_roundtrip (cache : Option CacheEntry) (creds : Credentials)
    (t : AccessToken) (now : Nat) (h : now + safetyMargin < t.expiresAt) :
    load (save cache creds t) creds now = some t := by
  simp [load, save, cacheValid, h]

/-- Witness for C5 at a concrete token and time. -/
theorem c5_witness :
    0 + safetyMargin < sampleToken.expiresAt ∧
    load (save none sampleCreds sampleToken) sampleCreds 0 = some sampleToken :=
  ⟨by decide, c5_save_load_roundtrip none sampleCreds sampleToken 0 (by decide)⟩

/-- C6: `load` returns nothing exactly when there is no entry, the
stored fingerprint does not match the current credentials, or expiry
minus the safety margin is not after the current time (so at or past
the margin boundary the cache misses). -/
theorem c6_load_none_iff (cache : Option CacheEntry) (creds : Credentials)
    (now : Nat) :
    load cache creds now = none ↔
      cache = none ∨ ∃ e, cache = some e ∧
        (e.fingerprint ≠ fingerprint creds ∨
          e.token.expiresAt ≤ now + safetyMargin) := by
  cases cache with
  | none => simp [load]
  | some e =>
      simp only [load, cacheValid, Option.some_ne_none, false_or]
      constructor
      · intro h
        refine ⟨e, rfl, ?_⟩
        by_contra hc
        push_neg at hc
        rw [if_pos] at h
        · exact Option.some_ne_none _ h
        · simp only [decide_eq_true_eq]
          exact ⟨hc.1, hc.2⟩
      · rintro ⟨e', he', hbad⟩
        obtain rfl : e' = e := by injection he' with h; exact h.symm
        rw [if_neg]
        simp only [decide_eq_true_eq, not_and_or]
        rcases hbad with h | h
        · exact Or.inl h
        · exact Or.inr (not_lt.mpr h)

/-- Helper: the tail of the flow after the OTP step reports exactly the
OTP submissions made before it. -/
theorem flowAfterOtp_count (creds : Credentials) (script : Script) (now n : Nat) :
    (flowAfterOtp creds script now n).otpSubmissions = n := by
  unfold flowAfterOtp
  split
  · rfl
  · split
    · rfl
    · rfl

/-- Helper: no run of the state machine ever submits more than two
OTPs. -/
theorem runFlow_count_le (creds : Credentials) (script : Script) (now : Nat) :
    (runFlow creds script now).otpSubmissions ≤ 2 := by
  unfold runFlow
  split
  · simp
  · split
    · simp
    · split
      · simp [flowAfterOtp_count]
      · split
        · simp [flowAfterOtp_count]
        · simp

/-- C2: with a valid secret and a script whose OTP step is rejected once
and accepted on the retry (all other steps accepted and the token
response well-formed), the machine reaches `TokenExchanged` with exactly
two OTP submissions; and on every input the machine submits at most two
OTPs. -/
theorem c2_otp_retry_bound (creds : Credentials) (script : Script) (now : Nat)
    (hsec : (decodeBase32 creds.totpSecret).isSome = true)
    (h1 : script.credResp.ok = true) (h2 : script.otpResp1.ok = false)
    (h3 : script.otpResp2.ok = true) (h4 : script.pinResp.ok = true)
    (hcode : script.authCode.isSome = true) (h5 : script.tokenResp.ok = true)
    (h6 : script.tokenResp.token.isSome = true)
    (h7 : script.tokenResp.expiresIn.isSome = true) :
    ((∃ t, machineStateOf (runFlow creds script now).result = .tokenExchanged t) ∧
      (runFlow creds script now).otpSubmissions = 2) ∧
    ∀ (c : Credentials) (s : Script) (n : Nat),
      (runFlow c s n).otpSubmissions ≤ 2 := by
  obtain ⟨key, hk⟩ := Option.isSome_iff_exists.mp hsec
  obtain ⟨code, hc⟩ := Option.isSome_iff_exists.mp hcode
  obtain ⟨tok, ht⟩ := Option.isSome_iff_exists.mp h6
  obtain ⟨d, hd⟩ := Option.isSome_iff_exists.mp h7
  have hg : generate creds.totpSecret now =
      .ok (String.mk (codeDigits (hotpMix key (now / timeStep) % 10 ^ totpDigits))) := by
    unfold generate
    rw [hk]
  refine ⟨?_, fun c s n => runFlow_count_le c s n⟩
  have hrun : runFlow creds script now = flowAfterOtp creds script now 2 := by
    simp [runFlow, h1, h2, h3, hg]
  have hafter : flowAfterOtp creds script now 2 =
      ⟨.ok ⟨tok, now, now + d, "Bearer"⟩, 2⟩ := by
    simp [flowAfterOtp, h4, hc, exchange, h5, ht, hd]
  rw [hrun, hafter]
  exact ⟨⟨_, rfl⟩, rfl⟩

/-- Witness for C2 at a concrete script whose first OTP submission is
rejected and whose retry is accepted. -/
theorem c2_witness :
    ((∃ t, machineStateOf (runFlow sampleCreds retryScript 3).result =
        .tokenExchanged t) ∧
      (runFlow sampleCreds retryScript 3).otpSubmissions = 2) ∧
    ∀ (c : Credentials) (s : Script) (n : Nat),
      (runFlow c s n).otpSubmissions ≤ 2 :=
  c2_otp_retry_bound sampleCreds retryScript 3 (by decide) rfl rfl rfl rfl rfl rfl
    rfl rfl

/-- C1: `getAccessToken` with `forceRefresh = false` returns the cached
token and leaves the cache unchanged on a valid cache hit; on a cache
miss, and likewise whenever `forceRefresh = true`, it runs the full flow
and, on success, saves the newly exchanged token to the cache before
returning it. -/
theorem c1_getAccessToken_cache_flow (cache : Option CacheEntry)
    (creds : Credentials) (script : Script) (now : Nat) :
    (∀ t, load cache creds now = some t →
      getAccessToken false cache creds script now = (.ok t, cache)) ∧
    (∀ t, load cache creds now = none →
      (runFlow creds script now).result = .ok t →
      getAccessToken false cache creds script now = (.ok t, save cache creds t)) ∧
    (∀ t, (runFlow creds script now).result = .ok t →
      getAccessToken true cache creds script now = (.ok t, save cache creds t)) := by
  refine ⟨?_, ?_, ?_⟩
  · intro t hload
    simp [getAccessToken, hload]
  · intro t hload hrun
    simp [getAccessToken, hload, hrun]
  · intro t hrun
    simp [getAccessToken, hrun]

/-- Witness for C1: a concrete cache hit is returned as-is with the
cache untouched, and a concrete forced refresh reruns the flow and saves
the fresh token. -/
theorem c1_witness :
    getAccessToken false (some sampleEntry) sampleCreds okScript 5 =
      (.ok sampleToken, some sampleEntry) ∧
    getAccessToken true (some sampleEntry) sampleCreds okScript 0 =
      (.ok sampleToken, save (some sampleEntry) sampleCreds sampleToken) :=
  ⟨(c1_getAccessToken_cache_flow (some sampleEntry) sampleCreds okScript 5).1
      sampleToken (by decide),
    (c1_getAccessToken_cache_flow (some sampleEntry) sampleCreds okScript 0).2.2
      sampleToken rfl⟩

/-- C7: a token-endpoint success response lacking the token string or
the expiry makes the Token Exchanger fail with `MalformedTokenResponse`,
and a failed exchange (any failing flow) leaves the cache unwritten. -/
theorem c7_malformed_response_no_cache_write (resp : TokenResponse)
    (code : String) (creds : Credentials) (now : Nat)
    (hok : resp.ok = true)
    (hmiss : resp.token = none ∨ resp.expiresIn = none) :
    exchange code creds resp now = .error .malformedTokenResponse ∧
    ∀ (f : Bool) (cache : Option CacheEntry) (script : Script) (e : AuthError),
      (runFlow creds script now).result = .error e →
      (getAccessToken f cache creds script now).2 = cache := by
  constructor
  · cases ht : resp.token with
    | none => simp [exchange, hok, ht]
    | some tok =>
        cases he : resp.expiresIn with
        | none => simp [exchange, hok, ht, he]
        | some d =>
            rw [ht] at hmiss
            rw [he] at hmiss
            rcases hmiss with h | h <;> exact absurd h (by simp)
  · intro f cache script e hrun
    cases hm : (if f then none else load cache creds now) with
    | some t => simp [getAccessToken, hm]
    | none => simp [getAccessToken, hm, hrun]

/-- Witness for C7 at a concrete response lacking the token field. -/
theorem c7_witness :
    exchange "AUTH" sampleCreds noTokenResp 0 = .error .malformedTokenResponse ∧
    (getAccessToken false none sampleCreds badTokenScript 0).2 = none :=
  ⟨(c7_malformed_response_no_cache_write noTokenResp "AUTH" sampleCreds 0 rfl
      (Or.inl rfl)).1,
    (c7_malformed_response_no_cache_write noTokenResp "AUTH" sampleCreds 0 rfl
      (Or.inl rfl)).2 false none badTokenScript .malformedTokenResponse rfl⟩

/-- Helper: `generate` only fails on a secret that does not base32
decode, and the only error is `InvalidSecret`. -/
theorem generate_error_shape (s : String) (t : Nat) (x : TotpError)
    (h : generate s t = .error x) :
    decodeBase32 s = none ∧ x = .invalidSecret := by
  cases hd : decodeBase32 s with
  | none =>
      refine ⟨rfl, ?_⟩
      cases x
      rfl
  | some key =>
      unfold generate at h
      rw [hd] at h
      exact absurd h (by simp)

/-- Helper: shape of a successful token exchange — the response was a
success carrying both required fields, and the token's issuance is the
exchange time with expiry the stated lifetime later. -/
theorem exchange_ok_shape (code : String) (creds : Credentials)
    (resp : TokenResponse) (now : Nat) (t : AccessToken)
    (h : exchange code creds resp now = .ok t) :
    resp.ok = true ∧ ∃ tok d, resp.token = some tok ∧
      resp.expiresIn = some d ∧ t = ⟨tok, now, now + d, "Bearer"⟩ := by
  cases hok : resp.ok with
  | false => simp [exchange, hok] at h
  | true =>
      refine ⟨rfl, ?_⟩
      cases ht : resp.token with
      | none => simp [exchange, hok, ht] at h
      | some tok =>
          cases he : resp.expiresIn with
          | none => simp [exchange, hok, ht, he] at h
          | some d =>
              refine ⟨tok, d, rfl, rfl, ?_⟩
              simp [exchange, hok, ht, he] at h
              exact h.symm

/-- Helper: shape of a failed token exchange — either a non-success
response reported with its status and body, or a success response
lacking a required field reported as malformed. -/
theorem exchange_error_shape (code : String) (creds : Credentials)
    (resp : TokenResponse) (now : Nat) (e : AuthError)
    (h : exchange code creds resp now = .error e) :
    (e = .tokenExchangeFailed resp.status resp.body ∧ resp.ok = false) ∨
    (e = .malformedTokenResponse ∧
      (resp.token = none ∨ resp.expiresIn = none)) := by
  cases hok : resp.ok with
  | false =>
      simp [exchange, hok] at h
      exact Or.inl ⟨h.symm, rfl⟩
  | true =>
      cases ht : resp.token with
      | none =>
          exact Or.inr ⟨by simpa [exchange, hok, ht] using h.symm, Or.inl rfl⟩
      | some tok =>
          cases he : resp.expiresIn with
          | none =>
              exact Or.inr ⟨by simpa [exchange, hok, ht, he] using h.symm,
                Or.inr rfl⟩
          | some d => simp [exchange, hok, ht, he] at h

/-- Helper: shape of a successful flow tail after the OTP step. -/
theorem flowAfterOtp_ok_shape (creds : Credentials) (script : Script)
    (now n : Nat) (t : AccessToken)
    (h : (flowAfterOtp creds script now n).result = .ok t) :
    script.tokenResp.ok = true ∧ ∃ tok d, script.tokenResp.token = some tok ∧
      script.tokenResp.expiresIn = some d ∧ t = ⟨tok, now, now + d, "Bearer"⟩ := by
  cases hpin : script.pinResp.ok with
  | false => simp [flowAfterOtp, hpin] at h
  | true =>
      cases hcode : script.authCode with
      | none => simp [flowAfterOtp, hpin, hcode] at h
      | some code =>
          have h' : exchange code creds script.tokenResp now = .ok t := by
            simpa [flowAfterOtp, hpin, hcode] using h
          exact exchange_ok_shape code creds _ now t h'

/-- Helper: shape of a failed flow tail after the OTP step. -/
theorem flowAfterOtp_error_shape (creds : Credentials) (script : Script)
    (now n : Nat) (e : AuthError)
    (h : (flowAfterOtp creds script now n).result = .error e) :
    (∃ r, e = .authStepFailed .pin (scriptStatus script .pin) r) ∨
    (∃ r, e = .authStepFailed .redirect (scriptStatus script .redirect) r) ∨
    (e = .tokenExchangeFailed script.tokenResp.status script.tokenResp.body ∧
      script.tokenResp.ok = false) ∨
    (e = .malformedTokenResponse ∧
      (script.tokenResp.token = none ∨ script.tokenResp.expiresIn = none)) := by
  cases hpin : script.pinResp.ok with
  | false =>
      simp [flowAfterOtp, hpin] at h
      exact Or.inl ⟨script.pinResp.reason, h.symm⟩
  | true =>
      cases hcode : script.authCode with
      | none =>
          simp [flowAfterOtp, hpin, hcode] at h
          exact Or.inr (Or.inl ⟨"redirect without authorization code", h.symm⟩)
      | some code =>
          have h' : exchange code creds script.tokenResp now = .error e := by
            simpa [flowAfterOtp, hpin, hcode] using h
          rcases exchange_error_shape code creds _ now e h' with h1 | h2
          · exact Or.inr (Or.inr (Or.inl h1))
          · exact Or.inr (Or.inr (Or.inr h2))

/-- Helper: shape of a successful full run — the token comes from a
well-formed token response, issued at the run's time. -/
theorem runFlow_ok_shape (creds : Credentials) (script : Script) (now : Nat)
    (t : AccessToken) (h : (runFlow creds script now).result = .ok t) :
    script.tokenResp.ok = true ∧ ∃ tok d, script.tokenResp.token = some tok ∧
      script.tokenResp.expiresIn = some d ∧ t = ⟨tok, now, now + d, "Bearer"⟩ := by
  cases hcred : script.credResp.ok with
  | false => simp [runFlow, hcred] at h
  | true =>
      cases hgen : generate creds.totpSecret now with
      | error x => simp [runFlow, hcred, hgen] at h
      | ok c =>
          cases ho1 : script.otpResp1.ok with
          | true =>
              exact flowAfterOtp_ok_shape creds script now 1 t
                (by simpa [runFlow, hcred, hgen, ho1] using h)
          | false =>
              cases ho2 : script.otpResp2.ok with
              | true =>
                  exact flowAfterOtp_ok_shape creds script now 2 t
                    (by simpa [runFlow, hcred, hgen, ho1, ho2] using h)
              | false => simp [runFlow, hcred, hgen, ho1, ho2] at h

/-- Helper: shape of a failed full run — the discriminated error either
stems from the malformed secret, or names the offending step together
with the HTTP status of the very response that rejected it, or reports
the token endpoint's status and body, or flags the malformed token
response. -/
theorem runFlow_error_shape (creds : Credentials) (script : Script) (now : Nat)
    (e : AuthError) (h : (runFlow creds script now).result = .error e) :
    (e = .invalidSecret ∧ decodeBase32 creds.totpSecret = none) ∨
    (∃ s r, e = .authStepFailed s (scriptStatus script s) r) ∨
    (e = .tokenExchangeFailed script.tokenResp.status script.tokenResp.body ∧
      script.tokenResp.ok = false) ∨
    (e = .malformedTokenResponse ∧
      (script.tokenResp.token = none ∨ script.tokenResp.expiresIn = none)) := by
  cases hcred : script.credResp.ok with
  | false =>
      simp [runFlow, hcred] at h
      exact Or.inr (Or.inl ⟨.credentials, script.credResp.reason, h.symm⟩)
  | true =>
      cases hgen : generate creds.totpSecret now with
      | error x =>
          obtain ⟨hdec, -⟩ := generate_error_shape _ _ _ hgen
          simp [runFlow, hcred, hgen] at h
          exact Or.inl ⟨h.symm, hdec⟩
      | ok c =>
          cases ho1 : script.otpResp1.ok with
          | true =>
              rcases flowAfterOtp_error_shape creds script now 1 e
                  (by simpa [runFlow, hcred, hgen, ho1] using h) with
                ⟨r, hr⟩ | ⟨r, hr⟩ | h1 | h2
              · exact Or.inr (Or.inl ⟨.pin, r, hr⟩)
              · exact Or.inr (Or.inl ⟨.redirect, r, hr⟩)
              · exact Or.inr (Or.inr (Or.inl h1))
              · exact Or.inr (Or.inr (Or.inr h2))
          | false =>
              cases ho2 : script.otpResp2.ok with
              | true =>
                  rcases flowAfterOtp_error_shape creds script now 2 e
                      (by simpa [runFlow, hcred, hgen, ho1, ho2] using h) with
                    ⟨r, hr⟩ | ⟨r, hr⟩ | h1 | h2
                  · exact Or.inr (Or.inl ⟨.pin, r, hr⟩)
                  · exact Or.inr (Or.inl ⟨.redirect, r, hr⟩)
                  · exact Or.inr (Or.inr (Or.inl h1))
                  · exact Or.inr (Or.inr (Or.inr h2))
              | false =>
                  simp [runFlow, hcred, hgen, ho1, ho2] at h
                  exact Or.inr (Or.inl ⟨.otp, script.otpResp2.reason, h.symm⟩)

/-- C8: every token the Token Exchanger constructs from a positive
vendor-stated lifetime has expiry strictly after issuance; a cache hit
is never past expiry; and `getAccessToken` never returns a token whose
expiry is not after the current time (given a positive stated
lifetime). -/
theorem c8_token_invariants :
    (∀ (code : String) (creds : Credentials) (resp : TokenResponse)
        (now d : Nat) (t : AccessToken),
        resp.expiresIn = some d → 0 < d →
        exchange code creds resp now = .ok t →
        t.issuedAt < t.expiresAt) ∧
    (∀ (cache : Option CacheEntry) (creds : Credentials) (now : Nat)
        (t : AccessToken),
        load cache creds now = some t → now < t.expiresAt) ∧
    (∀ (f : Bool) (cache : Option CacheEntry) (creds : Credentials)
        (script : Script) (now d : Nat) (t : AccessToken)
        (c' : Option CacheEntry),
        script.tokenResp.expiresIn = some d → 0 < d →
        getAccessToken f cache creds script now = (.ok t, c') →
        now < t.expiresAt) := by
  have hload : ∀ (cache : Option CacheEntry) (creds : Credentials) (now : Nat)
      (t : AccessToken), load cache creds now = some t → now < t.expiresAt := by
    intro cache creds now t h
    cases cache with
    | none => simp [load] at h
    | some e =>
        simp only [load] at h
        split at h
        · rename_i hv
          simp only [cacheValid, decide_eq_true_eq] at hv
          obtain rfl : t = e.token := by
            injection h with h'
            exact h'.symm
          have h2 := hv.2
          omega
        · exact absurd h (by simp)
  refine ⟨?_, hload, ?_⟩
  · intro code creds resp now d t hd hpos hex
    obtain ⟨-, tok, d', htok, hd', ht⟩ := exchange_ok_shape code creds resp now t hex
    rw [hd] at hd'
    have hdd : d = d' := by
      injection hd' with h'
    subst ht
    show now < now + d'
    omega
  · intro f cache creds script now d t c' hd hpos hget
    unfold getAccessToken at hget
    cases hm : (if f then none else load cache creds now) with
    | some t' =>
        rw [hm] at hget
        injection hget with ha hb
        have htt : t' = t := by
          injection ha with h'
        have hl := hload cache creds now t' (by
          cases f with
          | true => exact absurd hm (by simp)
          | false => simpa using hm)
        rw [htt] at hl
        exact hl
    | none =>
        rw [hm] at hget
        cases hr : (runFlow creds script now).result with
        | error e =>
            rw [hr] at hget
            injection hget with ha hb
            exact absurd ha (by simp)
        | ok t'' =>
            rw [hr] at hget
            injection hget with ha hb
            have htt : t'' = t := by
              injection ha with h'
            obtain ⟨-, tok, d', htok, hd', ht⟩ :=
              runFlow_ok_shape creds script now t'' hr
            rw [hd] at hd'
            have hdd : d = d' := by
              injection hd' with h'
            rw [← htt, ht]
            show now < now + d'
            omega

/-- Witness for C8 at concrete inputs: a concretely exchanged token, a
concrete cache hit, and a concrete forced refresh. -/
theorem c8_witness :
    sampleToken.issuedAt < sampleToken.expiresAt ∧
    (5 : Nat) < sampleToken.expiresAt ∧
    (0 : Nat) < sampleToken.expiresAt :=
  ⟨c8_token_invariants.1 "AUTH" sampleCreds okTokenResp 0 1000 sampleToken rfl
      (by decide) rfl,
    c8_token_invariants.2.1 (some sampleEntry) sampleCreds 5 sampleToken rfl,
    c8_token_invariants.2.2 true none sampleCreds okScript 0 1000 sampleToken
      (save none sampleCreds sampleToken) rfl (by decide) rfl⟩

/-- C9: a failing run ends in the `Failed` state carrying a single
discriminated error, the caller receives that error and never any
partial token (and the cache is untouched), and the error records the
failing step together with the HTTP status of the offending vendor
response. -/
theorem c9_failure_reporting (creds : Credentials) (script : Script) (now : Nat)
    (e : AuthError) (h : (runFlow creds script now).result = .error e) :
    machineStateOf (runFlow creds script now).result = .failed e ∧
    (∀ (f : Bool) (cache : Option CacheEntry),
      (if f then none else load cache creds now) = none →
      getAccessToken f cache creds script now = (.error e, cache)) ∧
    ((e = .invalidSecret ∧ decodeBase32 creds.totpSecret = none) ∨
     (∃ s r, e = .authStepFailed s (scriptStatus script s) r) ∨
     (e = .tokenExchangeFailed script.tokenResp.status script.tokenResp.body ∧
       script.tokenResp.ok = false) ∨
     (e = .malformedTokenResponse ∧
       (script.tokenResp.token = none ∨ script.tokenResp.expiresIn = none))) := by
  refine ⟨by rw [h]; rfl, ?_, runFlow_error_shape creds script now e h⟩
  intro f cache hm
  simp [getAccessToken, hm, h]

/-- Witness for C9 at a concrete script whose PIN step is rejected with
status 400. -/
theorem c9_witness :
    machineStateOf (runFlow sampleCreds pinFailScript 0).result =
      .failed (.authStepFailed .pin 400 "rejected") ∧
    getAccessToken false none sampleCreds pinFailScript 0 =
      (.error (.authStepFailed .pin 400 "rejected"), none) :=
  ⟨(c9_failure_reporting sampleCreds pinFailScript 0 _ rfl).1,
    (c9_failure_reporting sampleCreds pinFailScript 0 _ rfl).2.1 false none rfl⟩

/-- Helper: parsing a length-prefixed string encoding recovers the
string and the remaining bytes. -/
theorem decStr_encStr (s : String) (r : List Nat) :
    decStr (encStr s ++ r) = some (s, r) := by
  cases s with
  | mk cs =>
      have hmap : (cs.map Char.toNat).length = cs.length := List.length_map _ _
      show decStr (cs.length :: (cs.map Char.toNat ++ r)) = _
      rw [decStr, if_pos (by rw [List.length_append, hmap]; omega)]
      rw [List.take_left' hmap, List.drop_left' hmap]
      rw [List.map_map]
      have hid : (Char.ofNat ∘ Char.toNat) = id := funext fun c => Char.ofNat_toNat c
      rw [hid, List.map_id]

/-- Helper: deserialization inverts serialization exactly. -/
theorem deserialize_serialize (e : CacheEntry) :
    deserialize (serialize e) = some e := by
  obtain ⟨⟨tok, iss, expy, ty⟩, fp⟩ := e
  have hty : decStr (encStr ty) = some (ty, []) := by
    have h := decStr_encStr ty []
    rwa [List.append_nil] at h
  show deserialize (202 :: fp :: iss :: expy :: (encStr tok ++ encStr ty)) = _
  simp [deserialize, decStr_encStr, hty]

/-- Helper: executing one more operation. -/
theorem exec_cons (x : FsOp) (l : List FsOp) (fs : FS) :
    exec (x :: l) fs = exec l (applyOp fs x) := rfl

/-- Helper invariant: along every interleaving of the two writers'
remaining operation sequences, every prefix of the execution leaves the
main token file holding either its original content or one of the two
complete serialized values — never a partial write. -/
theorem merge_exec_main {d1 d2 : List Nat} (h1 : d1 ≠ []) (h2 : d2 ≠ [])
    {a b l : List FsOp} (m : Merge a b l) :
    ∀ (fs : FS) (m0 : Option (List Nat)),
      Writer1At d1 a fs.temp1 → Writer2At d2 b fs.temp2 →
      (fs.main = m0 ∨ fs.main = some d1 ∨ fs.main = some d2) →
      ∀ p, p <+: l →
        ((exec p fs).main = m0 ∨ (exec p fs).main = some d1 ∨
          (exec p fs).main = some d2) := by
  induction m with
  | nil =>
      intro fs m0 hw1 hw2 hmain p hp
      obtain rfl := List.prefix_nil.mp hp
      exact hmain
  | @left x a b l m ih =>
      intro fs m0 hw1 hw2 hmain p hp
      cases p with
      | nil => exact hmain
      | cons y p' =>
          obtain ⟨rfl, hp'⟩ := List.cons_prefix_cons.mp hp
          rw [exec_cons]
          rcases hw1 with ⟨k, hk, ha, ht⟩ | ha
          · by_cases hkl : k < d1.length
            · rw [List.drop_eq_getElem_cons hkl] at ha
              simp only [List.map_cons, List.cons_append, List.cons.injEq] at ha
              obtain ⟨rfl, ha'⟩ := ha
              refine ih (applyOp fs (.write1 d1[k])) m0 ?_ hw2 hmain p' hp'
              refine Or.inl ⟨k + 1, hkl, ha', ?_⟩
              show (some (fs.temp1.getD [] ++ [d1[k]])).getD [] = d1.take (k + 1)
              rw [Option.getD_some, ht, List.take_succ,
                List.getElem?_eq_getElem hkl]
              rfl
            · have hke : k = d1.length := Nat.le_antisymm hk (Nat.not_lt.mp hkl)
              rw [hke, List.drop_length] at ha
              simp only [List.map_nil, List.nil_append, List.cons.injEq] at ha
              obtain ⟨rfl, ha'⟩ := ha
              have htemp : fs.temp1 = some d1 := by
                cases hft : fs.temp1 with
                | none =>
                    rw [hft] at ht
                    rw [hke, List.take_length] at ht
                    exact absurd ht.symm h1
                | some v =>
                    rw [hft] at ht
                    rw [hke, List.take_length] at ht
                    have hv : v = d1 := by simpa using ht
                    rw [hv]
              refine ih (applyOp fs .rename1) m0 (Or.inr ha') hw2 ?_ p' hp'
              show fs.temp1 = m0 ∨ fs.temp1 = some d1 ∨ fs.temp1 = some d2
              exact Or.inr (Or.inl htemp)
          · exact absurd ha (by simp)
  | @right x a b l m ih =>
      intro fs m0 hw1 hw2 hmain p hp
      cases p with
      | nil => exact hmain
      | cons y p' =>
          obtain ⟨rfl, hp'⟩ := List.cons_prefix_cons.mp hp
          rw [exec_cons]
          rcases hw2 with ⟨k, hk, hb, ht⟩ | hb
          · by_cases hkl : k < d2.length
            · rw [List.drop_eq_getElem_cons hkl] at hb
              simp only [List.map_cons, List.cons_append, List.cons.injEq] at hb
              obtain ⟨rfl, hb'⟩ := hb
              refine ih (applyOp fs (.write2 d2[k])) m0 hw1 ?_ hmain p' hp'
              refine Or.inl ⟨k + 1, hkl, hb', ?_⟩
              show (some (fs.temp2.getD [] ++ [d2[k]])).getD [] = d2.take (k + 1)
              rw [Option.getD_some, ht, List.take_succ,
                List.getElem?_eq_getElem hkl]
              rfl
            · have hke : k = d2.length := Nat.le_antisymm hk (Nat.not_lt.mp hkl)
              rw [hke, List.drop_length] at hb
              simp only [List.map_nil, List.nil_append, List.cons.injEq] at hb
              obtain ⟨rfl, hb'⟩ := hb
              have htemp : fs.temp2 = some d2 := by
                cases hft : fs.temp2 with
                | none =>
                    rw [hft] at ht
                    rw [hke, List.take_length] at ht
                    exact absurd ht.symm h2
                | some v =>
                    rw [hft] at ht
                    rw [hke, List.take_length] at ht
                    have hv : v = d2 := by simpa using ht
                    rw [hv]
              refine ih (applyOp fs .rename2) m0 hw1 (Or.inr hb') ?_ p' hp'
              show fs.temp2 = m0 ∨ fs.temp2 = some d1 ∨ fs.temp2 = some d2
              exact Or.inr (Or.inr htemp)
          · exact absurd hb (by simp)

/-- C10: for every interleaving of two concurrent `save` executions and
every crash point (prefix) of it, what `load` observes is either the
original file's parse or one of the two complete saved entries — never
a truncated or partial file readable as a valid token. -/
theorem c10_save_atomic (e1 e2 : CacheEntry) (m0 : Option (List Nat))
    (l p : List FsOp)
    (hm : Merge (writer1Ops (serialize e1)) (writer2Ops (serialize e2)) l)
    (hp : p <+: l) :
    loadFS (exec p ⟨m0, none, none⟩) = m0.bind deserialize ∨
    loadFS (exec p ⟨m0, none, none⟩) = some e1 ∨
    loadFS (exec p ⟨m0, none, none⟩) = some e2 := by
  have h1 : serialize e1 ≠ [] := by simp [serialize]
  have h2 : serialize e2 ≠ [] := by simp [serialize]
  have hw1 : Writer1At (serialize e1) (writer1Ops (serialize e1))
      (FS.mk m0 none none).temp1 :=
    Or.inl ⟨0, Nat.zero_le _, by simp [writer1Ops], rfl⟩
  have hw2 : Writer2At (serialize e2) (writer2Ops (serialize e2))
      (FS.mk m0 none none).temp2 :=
    Or.inl ⟨0, Nat.zero_le _, by simp [writer2Ops], rfl⟩
  rcases merge_exec_main h1 h2 hm ⟨m0, none, none⟩ m0 hw1 hw2 (Or.inl rfl) p hp with
    h | h | h
  · exact Or.inl (by rw [loadFS, h])
  · exact Or.inr (Or.inl (by rw [loadFS, h, Option.some_bind, deserialize_serialize]))
  · exact Or.inr (Or.inr (by rw [loadFS, h, Option.some_bind, deserialize_serialize]))

/-- Helper: the empty sequence merges with any sequence. -/
theorem merge_nil_left (b : List FsOp) : Merge [] b b := by
  induction b with
  | nil => exact .nil
  | cons x xs ih => exact .right ih

/-- Helper: running one writer entirely before the other is one valid
interleaving. -/
theorem merge_append (a b : List FsOp) : Merge a b (a ++ b) := by
  induction a with
  | nil => exact merge_nil_left b
  | cons x xs ih => exact .left ih

/-- Witness for C6: at the exact margin boundary (60 seconds before
expiry) the cache load already misses. -/
theorem c6_witness :
    load (some sampleEntry) sampleCreds 940 = none :=
  (c6_load_none_iff (some sampleEntry) sampleCreds 940).mpr
    (Or.inr ⟨sampleEntry, rfl, Or.inr (by decide)⟩)

/-- Witness for C10 at two concrete entries, for the interleaving that
runs the first writer to completion and then the second, observed at its
final crash point. -/
theorem c10_witness :
    loadFS (exec (writer1Ops (serialize sampleEntry) ++
        writer2Ops (serialize ⟨sampleToken, 0⟩)) ⟨none, none, none⟩) =
      Option.bind none deserialize ∨
    loadFS (exec (writer1Ops (serialize sampleEntry) ++
        writer2Ops (serialize ⟨sampleToken, 0⟩)) ⟨none, none, none⟩) =
      some sampleEntry ∨
    loadFS (exec (writer1Ops (serialize sampleEntry) ++
        writer2Ops (serialize ⟨sampleToken, 0⟩)) ⟨none, none, none⟩) =
      some ⟨sampleToken, 0⟩ :=
  c10_save_atomic sampleEntry ⟨sampleToken, 0⟩ none _ _
    (merge_append (writer1Ops (serialize sampleEntry))
      (writer2Ops (serialize ⟨sampleToken, 0⟩)))
    (List.prefix_refl _)

end UpstoxTotp
